import Mathlib

/-! VisionCpp, `include/framework/expr_tree/neighbour_ops/stencil_with_filter.hpp`.

A shallow embedding of the `StnFilt` expression-tree node and of the four
`neighbour_operation` builders.

The C++ node is a class template: its metadata are `static constexpr` members of
the *type*, its operands and its `subexpr_execution_reseter` flag are members of
the *object*.  The embedding keeps the two apart:

* `ExprT` is a node type (template arguments only);
* `Expr` is a node object (the same tree, with the run-time flags);
* `Expr.ty` gives the type of an object.

`size_t` template arguments are natural numbers.  They are compared and halved,
which cannot wrap, and the builders add one to a level, which can: `size_t` is
taken as 64 bits wide, `neighbour_level_size_t` is the level argument as
computed in `size_t`, and `neighbour_level`, which the builders below carry, is
the same sum without wrap-around; the two agree unless the operand selected for
the sum has `Level = SIZE_MAX`.  C++ types that are not nodes (functors, element
types) are represented by numeric tags.
-/

namespace visioncpp

/-! ## Declarations the header relies on -/

/-- The functor type `internal::LocalBinaryOp<OP, LHS::OutType, RHS::OutType>`,
identified by its three template arguments. -/
structure LocalBinaryOp where
  OP : Nat
  LhsOutType : Nat
  RhsOutType : Nat
deriving DecidableEq

/-- The members of a memory type (`OutputMemory<...>::Type`, or the `Type` of an
operand) that this header reads: `Type::LeafType`, `Type::Cols`, `Type::Rows`. -/
structure MemoryType where
  LeafType : Nat
  Cols : Nat
  Rows : Nat
deriving DecidableEq

/-- Templates declared in other headers, taken as parameters:
`OutputMemory<OutType, LfType, Cols, Rows, LVL>::Type` and the `OutType` of a
`LocalBinaryOp` functor. -/
structure Decls where
  OutputMemory : Nat → Nat → Nat → Nat → Nat → MemoryType
  ConvOutType : LocalBinaryOp → Nat

/-- Static members of an operand type that is declared in another header (a leaf
node, or any node other than `StnFilt`): exactly the members that this header
reads from `LHS` and `RHS`. -/
structure Operand where
  OutType : Nat
  Type_ : MemoryType
  Level : Nat
  RThread : Nat
  CThread : Nat
  SubExpressionEvaluationNeeded : Bool
deriving DecidableEq

/-- The template arguments of `StnFilt` other than the operand types `LHS` and
`RHS`, in the order of the template parameter list (lines 46-48). -/
structure StnParams where
  Conv_OP : LocalBinaryOp
  Halo_T : Nat
  Halo_L : Nat
  Halo_B : Nat
  Halo_R : Nat
  Cols : Nat
  Rows : Nat
  LfType : Nat
  LVL : Nat
deriving DecidableEq

/-! ## Node types and their static members -/

/-- A node type: an operand type declared elsewhere, or
`StnFilt<Conv_OP, Halo_T, Halo_L, Halo_B, Halo_R, LHS, RHS, Cols, Rows, LfType, LVL>`. -/
inductive ExprT where
  | leaf (T : Operand) : ExprT
  | stnFilt (p : StnParams) (LHS RHS : ExprT) : ExprT
deriving DecidableEq

namespace StnFilt

/-- Line 61: `Halo_Top = Halo_T`. -/
def Halo_Top (p : StnParams) : Nat := p.Halo_T

/-- Line 62: `Halo_Butt = Halo_B`. -/
def Halo_Butt (p : StnParams) : Nat := p.Halo_B

/-- Line 63: `Halo_Left = Halo_L`. -/
def Halo_Left (p : StnParams) : Nat := p.Halo_L

/-- Line 64: `Halo_Right = Halo_R`. -/
def Halo_Right (p : StnParams) : Nat := p.Halo_R

/-- Line 65: `RThread = Rows`. -/
def RThread (p : StnParams) : Nat := p.Rows

/-- Line 66: `CThread = Cols`. -/
def CThread (p : StnParams) : Nat := p.Cols

/-- Line 58: `Level = LVL`. -/
def Level (p : StnParams) : Nat := p.LVL

/-- Line 52: `OutType = Conv_OP::OutType`. -/
def OutType (E : Decls) (p : StnParams) : Nat := E.ConvOutType p.Conv_OP

/-- Lines 56-57: `Type = OutputMemory<OutType, LfType, Cols, Rows, LVL>::Type`. -/
def Type_ (E : Decls) (p : StnParams) : MemoryType :=
  E.OutputMemory (OutType E p) p.LfType p.Cols p.Rows p.LVL

/-- Line 59: `LeafType = Type::LeafType`. -/
def LeafType (E : Decls) (p : StnParams) : Nat := (Type_ E p).LeafType

end StnFilt

namespace ExprT

/-- The member `Level` of a node type. -/
def Level : ExprT → Nat
  | leaf T => T.Level
  | stnFilt p _ _ => StnFilt.Level p

/-- The member `RThread` of a node type. -/
def RThread : ExprT → Nat
  | leaf T => T.RThread
  | stnFilt p _ _ => StnFilt.RThread p

/-- The member `CThread` of a node type. -/
def CThread : ExprT → Nat
  | leaf T => T.CThread
  | stnFilt p _ _ => StnFilt.CThread p

/-- The member `OutType` of a node type. -/
def OutType (E : Decls) : ExprT → Nat
  | leaf T => T.OutType
  | stnFilt p _ _ => StnFilt.OutType E p

/-- The member `Type` of a node type. -/
def Type_ (E : Decls) : ExprT → MemoryType
  | leaf T => T.Type_
  | stnFilt p _ _ => StnFilt.Type_ E p

end ExprT

namespace StnFilt

/-- Lines 68-69:
`Stencil_Conds = ((RThread != LHS::RThread) || (CThread != LHS::CThread))`,
a static member of `StnFilt<..., LHS, RHS, ...>`. -/
def Stencil_Conds (p : StnParams) (LHS _RHS : ExprT) : Bool :=
  (RThread p != LHS.RThread) || (CThread p != LHS.CThread)

end StnFilt

/-- Lines 70-72: the member `SubExpressionEvaluationNeeded` of a node type; for
`StnFilt` it is `Stencil_Conds || LHS::SubExpressionEvaluationNeeded ||
RHS::SubExpressionEvaluationNeeded`. -/
def ExprT.SubExpressionEvaluationNeeded : ExprT → Bool
  | .leaf T => T.SubExpressionEvaluationNeeded
  | .stnFilt p LHS RHS =>
      StnFilt.Stencil_Conds p LHS RHS || LHS.SubExpressionEvaluationNeeded ||
        RHS.SubExpressionEvaluationNeeded

/-- Lines 74-77: `ExprExchange<TmpLHS, TmpRHS>`, the same `StnFilt` with the
operand types replaced. -/
def StnFilt.ExprExchange (p : StnParams) (TmpLHS TmpRHS : ExprT) : ExprT :=
  .stnFilt p TmpLHS TmpRHS

/-- Modelled from the spec: `internal::tools::StaticIf<Cond, T1, T2>::Type` is
declared in another header; the spec gives the level of a binary node as
`1 + max(leftLevel, rightLevel)`, which makes `StaticIf` the selection of `T1`
when `Cond` holds and of `T2` otherwise. -/
def StaticIf (Cond : Bool) (T1 T2 : ExprT) : ExprT :=
  if Cond then T1 else T2

/-! ## Node objects -/

/-- A node object: an operand object of a type declared elsewhere (with its
execution-state flag), or a `StnFilt` object with its members `lhs`, `rhs` and
`subexpr_execution_reseter` (lines 79-81). -/
inductive Expr where
  | leaf (T : Operand) (state : Bool) : Expr
  | stnFilt (p : StnParams) (lhs rhs : Expr) (subexpr_execution_reseter : Bool) : Expr
deriving DecidableEq

/-- The type of a node object. -/
def Expr.ty : Expr → ExprT
  | .leaf T _ => .leaf T
  | .stnFilt p lhs rhs _ => .stnFilt p lhs.ty rhs.ty

/-- Lines 82-83: the constructor `StnFilt(lhsArg, rhsArg)`; it stores the
operands and initialises `subexpr_execution_reseter` to `false`. -/
def StnFilt.mk (p : StnParams) (lhsArg rhsArg : Expr) : Expr :=
  .stnFilt p lhsArg rhsArg false

/-- Modelled from the spec: `reset` of an operand declared in another header;
the spec gives every node a single resettable execution-state flag, which
`reset` sets. -/
def leaf_reset (_state : Bool) (reset : Bool) : Bool := reset

/-- Lines 85-89: `reset(bool reset)` resets `lhs`, then `rhs`, then stores the
argument in `subexpr_execution_reseter`. -/
def Expr.reset : Expr → Bool → Expr
  | .leaf T state, reset => .leaf T (leaf_reset state reset)
  | .stnFilt p lhs rhs _, reset => .stnFilt p (lhs.reset reset) (rhs.reset reset) reset

/-- The `subexpr_execution_reseter` flags of the `StnFilt` objects of a tree: the
root first, then the ones under `lhs`, then the ones under `rhs`. -/
def Expr.neighbourFlags : Expr → List Bool
  | .leaf _ _ => []
  | .stnFilt _ lhs rhs flag => flag :: (lhs.neighbourFlags ++ rhs.neighbourFlags)

/-- The number of `StnFilt` objects of a tree. -/
def Expr.neighbourCount : Expr → Nat
  | .leaf _ _ => 0
  | .stnFilt _ lhs rhs _ => 1 + lhs.neighbourCount + rhs.neighbourCount

/-- Lines 112-129, the body of `sub_expression_evaluation<ForcedToExec, LC, LR,
LCT, LRT>(dev)`.  The dispatcher `execute_expr<Conds, ForcedToExec, Expr, LC, LR,
LCT, LRT>(lhs, rhs, dev)` and the `sub_expression_evaluation` of operands
declared elsewhere are in other headers and are parameters; `F` is the type of
what they return. -/
def Expr.sub_expression_evaluation {F D : Type}
    (execute_expr : Bool → Bool → ExprT → Nat → Nat → Nat → Nat → F → F → D → F)
    (leaf_evaluation : Bool → Nat → Nat → Nat → Nat → Operand → Bool → D → F)
    (LC LR LCT LRT : Nat) (dev : D) : Expr → Bool → F
  | .leaf T state, ForcedToExec => leaf_evaluation ForcedToExec LC LR LCT LRT T state dev
  | .stnFilt p lhs rhs _, ForcedToExec =>
      execute_expr (StnFilt.Stencil_Conds p lhs.ty rhs.ty) ForcedToExec
        (StnFilt.ExprExchange p lhs.ty rhs.ty) LC LR LCT LRT
        (lhs.sub_expression_evaluation execute_expr leaf_evaluation LC LR LCT LRT dev
          (StnFilt.Stencil_Conds p lhs.ty rhs.ty))
        (rhs.sub_expression_evaluation execute_expr leaf_evaluation LC LR LCT LRT dev
          (StnFilt.Stencil_Conds p lhs.ty rhs.ty))
        dev

/-- A record of one run of `sub_expression_evaluation`: which call was made with
which template arguments and which operand results. -/
inductive Fragment where
  | operand (ForcedToExec : Bool) (LC LR LCT LRT : Nat) (T : Operand) (state : Bool) : Fragment
  | executed (Conds ForcedToExec : Bool) (Node : ExprT) (LC LR LCT LRT : Nat)
      (lhs rhs : Fragment) : Fragment
deriving DecidableEq

/-- The dispatcher that only records its call. -/
def record_execute (Conds ForcedToExec : Bool) (Node : ExprT) (LC LR LCT LRT : Nat)
    (lhs rhs : Fragment) (_dev : Unit) : Fragment :=
  .executed Conds ForcedToExec Node LC LR LCT LRT lhs rhs

/-- The operand evaluation that only records its call. -/
def record_leaf (ForcedToExec : Bool) (LC LR LCT LRT : Nat) (T : Operand) (state : Bool)
    (_dev : Unit) : Fragment :=
  .operand ForcedToExec LC LR LCT LRT T state

/-- The run of `sub_expression_evaluation` on a tree, recorded. -/
def Expr.decide (LC LR LCT LRT : Nat) (e : Expr) (ForcedToExec : Bool) : Fragment :=
  e.sub_expression_evaluation record_execute record_leaf LC LR LCT LRT () ForcedToExec

namespace Fragment

/-- The `ForcedToExec` argument with which `execute_expr` was called, for the
record of a `StnFilt` node; `none` for an operand declared elsewhere, which does
not go through the dispatcher here. -/
def dispatchedForced : Fragment → Option Bool
  | operand .. => none
  | executed _ ForcedToExec .. => some ForcedToExec

/-- The `ForcedToExec` argument with which the recorded
`sub_expression_evaluation` was instantiated. -/
def decidedForced : Fragment → Bool
  | operand ForcedToExec .. => ForcedToExec
  | executed _ ForcedToExec .. => ForcedToExec

/-- The `ForcedToExec` arguments with which the left and the right operand were
evaluated, for the record of a `StnFilt` node. -/
def operandsForced : Fragment → Option (Bool × Bool)
  | operand .. => none
  | executed _ _ _ _ _ _ _ lhs rhs => some (lhs.decidedForced, rhs.decidedForced)

/-- The records of the two operand evaluations handed to `execute_expr`. -/
def operands : Fragment → Option (Fragment × Fragment)
  | operand .. => none
  | executed _ _ _ _ _ _ _ lhs rhs => some (lhs, rhs)

/-- Replays a record with a given dispatcher and operand evaluation. -/
def replay {F D : Type}
    (execute_expr : Bool → Bool → ExprT → Nat → Nat → Nat → Nat → F → F → D → F)
    (leaf_evaluation : Bool → Nat → Nat → Nat → Nat → Operand → Bool → D → F)
    (dev : D) : Fragment → F
  | operand ForcedToExec LC LR LCT LRT T state =>
      leaf_evaluation ForcedToExec LC LR LCT LRT T state dev
  | executed Conds ForcedToExec Node LC LR LCT LRT lhs rhs =>
      execute_expr Conds ForcedToExec Node LC LR LCT LRT
        (lhs.replay execute_expr leaf_evaluation dev)
        (rhs.replay execute_expr leaf_evaluation dev) dev

end Fragment

/-! ## The four `neighbour_operation` overloads -/

/-- The level argument common to the four overloads:
`1 + StaticIf<(LHS::Level > RHS::Level), LHS, RHS>::Type::Level`, as a natural
number, without the wrap-around of `size_t`. -/
def neighbour_level (LHS RHS : ExprT) : Nat :=
  1 + (StaticIf (decide (LHS.Level > RHS.Level)) LHS RHS).Level

/-- Lines 135-149, overload (a): `Cols`, `Rows` and `LeafType` given by the user,
halo deduced from the filter. -/
def neighbour_operation_a (E : Decls) (OP Cols Rows LeafType : Nat) (lhs rhs : Expr) : Expr :=
  StnFilt.mk
    ⟨⟨OP, lhs.ty.OutType E, rhs.ty.OutType E⟩,
      (rhs.ty.Type_ E).Rows / 2, (rhs.ty.Type_ E).Cols / 2, (rhs.ty.Type_ E).Rows / 2,
      (rhs.ty.Type_ E).Cols / 2, Cols, Rows, LeafType, neighbour_level lhs.ty rhs.ty⟩
    lhs rhs

/-- Lines 151-168, overload (b): `Cols`, `Rows` and `LeafType` deduced from the
left operand, halo deduced from the filter. -/
def neighbour_operation_b (E : Decls) (OP : Nat) (lhs rhs : Expr) : Expr :=
  StnFilt.mk
    ⟨⟨OP, lhs.ty.OutType E, rhs.ty.OutType E⟩,
      (rhs.ty.Type_ E).Rows / 2, (rhs.ty.Type_ E).Cols / 2, (rhs.ty.Type_ E).Rows / 2,
      (rhs.ty.Type_ E).Cols / 2, (lhs.ty.Type_ E).Cols, (lhs.ty.Type_ E).Rows,
      (lhs.ty.Type_ E).LeafType, neighbour_level lhs.ty rhs.ty⟩
    lhs rhs

/-- Lines 170-185, overload (c): halo, `Cols`, `Rows` and `LeafType` given by the
user. -/
def neighbour_operation_c (E : Decls) (OP Halo_T Halo_L Halo_B Halo_R Cols Rows LeafType : Nat)
    (lhs rhs : Expr) : Expr :=
  StnFilt.mk
    ⟨⟨OP, lhs.ty.OutType E, rhs.ty.OutType E⟩,
      Halo_T, Halo_L, Halo_B, Halo_R, Cols, Rows, LeafType, neighbour_level lhs.ty rhs.ty⟩
    lhs rhs

/-- Lines 187-204, overload (d): halo given by the user, `Cols`, `Rows` and
`LeafType` deduced from the left operand. -/
def neighbour_operation_d (E : Decls) (OP Halo_T Halo_L Halo_B Halo_R : Nat)
    (lhs rhs : Expr) : Expr :=
  StnFilt.mk
    ⟨⟨OP, lhs.ty.OutType E, rhs.ty.OutType E⟩,
      Halo_T, Halo_L, Halo_B, Halo_R, (lhs.ty.Type_ E).Cols, (lhs.ty.Type_ E).Rows,
      (lhs.ty.Type_ E).LeafType, neighbour_level lhs.ty rhs.ty⟩
    lhs rhs

/-- The halo `(Halo_Top, Halo_Left, Halo_Butt, Halo_Right)` of a `StnFilt`
object; `none` for an operand declared elsewhere. -/
def Expr.Halo : Expr → Option (Nat × Nat × Nat × Nat)
  | .leaf _ _ => none
  | .stnFilt p _ _ _ =>
      some (StnFilt.Halo_Top p, StnFilt.Halo_Left p, StnFilt.Halo_Butt p, StnFilt.Halo_Right p)

/-- Whether a node object is a `StnFilt` (neighbour) node. -/
def Expr.isNeighbour : Expr → Bool
  | .leaf _ _ => false
  | .stnFilt _ _ _ _ => true

/-- The `Stencil_Conds` of a `StnFilt` object; `none` for an operand declared
elsewhere, whose type has no such member in this header. -/
def Expr.nodeStencilConds : Expr → Option Bool
  | .leaf _ _ => none
  | .stnFilt p lhs rhs _ => some (StnFilt.Stencil_Conds p lhs.ty rhs.ty)

/-- The subtree reached from a node by a path of operand choices (`false` is
`lhs`, `true` is `rhs`); `none` when the path leaves the tree. -/
def Expr.subAt : Expr → List Bool → Option Expr
  | e, [] => some e
  | .leaf _ _, _ :: _ => none
  | .stnFilt _ lhs rhs _, d :: path => if d then rhs.subAt path else lhs.subAt path

/-- The types of the `StnFilt` objects of a tree: the root first, then the ones
under `lhs`, then the ones under `rhs`. -/
def Expr.neighbourNodes : Expr → List ExprT
  | .leaf _ _ => []
  | .stnFilt p lhs rhs _ =>
      ExprT.stnFilt p lhs.ty rhs.ty :: (lhs.neighbourNodes ++ rhs.neighbourNodes)

/-- The number of operand objects declared elsewhere (leaves) of a tree. -/
def Expr.leafCount : Expr → Nat
  | .leaf _ _ => 1
  | .stnFilt _ lhs rhs _ => lhs.leafCount + rhs.leafCount

/-- All subtrees of a tree, the tree itself first. -/
def Expr.subtrees : Expr → List Expr
  | .leaf T state => [.leaf T state]
  | .stnFilt p lhs rhs flag => .stnFilt p lhs rhs flag :: (lhs.subtrees ++ rhs.subtrees)

/-- The proper descendants of a node: the subtrees of its operands. -/
def Expr.properDescendants : Expr → List Expr
  | .leaf _ _ => []
  | .stnFilt _ lhs rhs _ => lhs.subtrees ++ rhs.subtrees

/-- The height of a node: the length of the longest path down to a leaf. -/
def Expr.height : Expr → Nat
  | .leaf _ _ => 0
  | .stnFilt _ lhs rhs _ => 1 + max lhs.height rhs.height

/-- A tree built only with the four `neighbour_operation` overloads over leaves
of level 0. -/
inductive BuiltByNeighbourOperation (E : Decls) : Expr → Prop where
  | leaf (T : Operand) (state : Bool) (h : T.Level = 0) :
      BuiltByNeighbourOperation E (.leaf T state)
  | overload_a (OP Cols Rows LeafType : Nat) (lhs rhs : Expr)
      (hl : BuiltByNeighbourOperation E lhs) (hr : BuiltByNeighbourOperation E rhs) :
      BuiltByNeighbourOperation E (neighbour_operation_a E OP Cols Rows LeafType lhs rhs)
  | overload_b (OP : Nat) (lhs rhs : Expr)
      (hl : BuiltByNeighbourOperation E lhs) (hr : BuiltByNeighbourOperation E rhs) :
      BuiltByNeighbourOperation E (neighbour_operation_b E OP lhs rhs)
  | overload_c (OP Halo_T Halo_L Halo_B Halo_R Cols Rows LeafType : Nat) (lhs rhs : Expr)
      (hl : BuiltByNeighbourOperation E lhs) (hr : BuiltByNeighbourOperation E rhs) :
      BuiltByNeighbourOperation E
        (neighbour_operation_c E OP Halo_T Halo_L Halo_B Halo_R Cols Rows LeafType lhs rhs)
  | overload_d (OP Halo_T Halo_L Halo_B Halo_R : Nat) (lhs rhs : Expr)
      (hl : BuiltByNeighbourOperation E lhs) (hr : BuiltByNeighbourOperation E rhs) :
      BuiltByNeighbourOperation E
        (neighbour_operation_d E OP Halo_T Halo_L Halo_B Halo_R lhs rhs)

namespace ExprT

/-- All subtrees of a node type, the type itself first. -/
def subtrees : ExprT → List ExprT
  | leaf T => [leaf T]
  | stnFilt p LHS RHS => stnFilt p LHS RHS :: (LHS.subtrees ++ RHS.subtrees)

/-- Whether a node type is a `StnFilt` whose `Stencil_Conds` is true. -/
def shapeMismatch : ExprT → Bool
  | leaf _ => false
  | stnFilt p LHS RHS => StnFilt.Stencil_Conds p LHS RHS

/-- Whether every operand type declared elsewhere (every leaf) of a tree has
`SubExpressionEvaluationNeeded = false`. -/
def leavesNeedNoEvaluation : ExprT → Bool
  | leaf T => !T.SubExpressionEvaluationNeeded
  | stnFilt _ LHS RHS => LHS.leavesNeedNoEvaluation && RHS.leavesNeedNoEvaluation

end ExprT

namespace Fragment

/-- The `Conds` argument with which `execute_expr` was called, for the record of a
`StnFilt` node. -/
def dispatchedConds : Fragment → Option Bool
  | operand .. => none
  | executed Conds .. => some Conds

/-- The tile arguments `(LC, LR, LCT, LRT)` of the recorded call. -/
def tile : Fragment → Nat × Nat × Nat × Nat
  | operand _ LC LR LCT LRT _ _ => (LC, LR, LCT, LRT)
  | executed _ _ _ LC LR LCT LRT _ _ => (LC, LR, LCT, LRT)

/-- The record reached by a path of operand choices (`false` is `lhs`, `true` is
`rhs`). -/
def subAt : Fragment → List Bool → Option Fragment
  | fr, [] => some fr
  | operand .., _ :: _ => none
  | executed _ _ _ _ _ _ _ lhs rhs, d :: path => if d then rhs.subAt path else lhs.subAt path

/-- The materialization boundaries of a recorded run: the paths, from the given
one, of the nodes dispatched with forced flag true. -/
def boundariesAt : Fragment → List Bool → List (List Bool)
  | operand .., _ => []
  | executed _ ForcedToExec _ _ _ _ _ lhs rhs, path =>
      (if ForcedToExec then [path] else []) ++
        (lhs.boundariesAt (path ++ [false]) ++ rhs.boundariesAt (path ++ [true]))

/-- The materialization boundaries of a recorded run, as paths from the root. -/
def boundaries (fr : Fragment) : List (List Bool) := fr.boundariesAt []

/-- The node types handed to the dispatcher in a recorded run, one entry per
call of `execute_expr`. -/
def dispatchedNodes : Fragment → List ExprT
  | operand .. => []
  | executed _ _ Node _ _ _ _ lhs rhs => Node :: (lhs.dispatchedNodes ++ rhs.dispatchedNodes)

/-- The number of evaluations of operands declared elsewhere in a recorded run. -/
def operandEvaluations : Fragment → Nat
  | operand .. => 1
  | executed _ _ _ _ _ _ _ lhs rhs => lhs.operandEvaluations + rhs.operandEvaluations

end Fragment

/-- Lines 114-121, the trailing return type of `sub_expression_evaluation`: the
type of `execute_expr<Stencil_Conds, ForcedToExec, ExprExchange<LHS, RHS>, LC, LR,
LCT, LRT>(lhs.sub_expression_evaluation<Stencil_Conds, LC, LR, LRT, LCT>(dev),
rhs.sub_expression_evaluation<Stencil_Conds, LC, LR, LRT, LCT>(dev), dev)`.  The
type of an operand call is the declared result type of that instantiation, so
the computation recurses; `execute_expr` and `leaf_evaluation` give the result
of the dispatcher and of an operand declared elsewhere. -/
def Expr.declared_result {F D : Type}
    (execute_expr : Bool → Bool → ExprT → Nat → Nat → Nat → Nat → F → F → D → F)
    (leaf_evaluation : Bool → Nat → Nat → Nat → Nat → Operand → Bool → D → F)
    (dev : D) : Expr → Bool → Nat → Nat → Nat → Nat → F
  | .leaf T state, ForcedToExec, LC, LR, LCT, LRT =>
      leaf_evaluation ForcedToExec LC LR LCT LRT T state dev
  | .stnFilt p lhs rhs _, ForcedToExec, LC, LR, LCT, LRT =>
      execute_expr (StnFilt.Stencil_Conds p lhs.ty rhs.ty) ForcedToExec
        (StnFilt.ExprExchange p lhs.ty rhs.ty) LC LR LCT LRT
        (lhs.declared_result execute_expr leaf_evaluation dev
          (StnFilt.Stencil_Conds p lhs.ty rhs.ty) LC LR LRT LCT)
        (rhs.declared_result execute_expr leaf_evaluation dev
          (StnFilt.Stencil_Conds p lhs.ty rhs.ty) LC LR LRT LCT)
        dev

/-- Lines 122-128, the expression the body returns, with each operand call
standing for the declared result of its instantiation
`<Stencil_Conds, LC, LR, LCT, LRT>`. -/
def Expr.returned_result {F D : Type}
    (execute_expr : Bool → Bool → ExprT → Nat → Nat → Nat → Nat → F → F → D → F)
    (leaf_evaluation : Bool → Nat → Nat → Nat → Nat → Operand → Bool → D → F)
    (dev : D) : Expr → Bool → Nat → Nat → Nat → Nat → F
  | .leaf T state, ForcedToExec, LC, LR, LCT, LRT =>
      leaf_evaluation ForcedToExec LC LR LCT LRT T state dev
  | .stnFilt p lhs rhs _, ForcedToExec, LC, LR, LCT, LRT =>
      execute_expr (StnFilt.Stencil_Conds p lhs.ty rhs.ty) ForcedToExec
        (StnFilt.ExprExchange p lhs.ty rhs.ty) LC LR LCT LRT
        (lhs.declared_result execute_expr leaf_evaluation dev
          (StnFilt.Stencil_Conds p lhs.ty rhs.ty) LC LR LCT LRT)
        (rhs.declared_result execute_expr leaf_evaluation dev
          (StnFilt.Stencil_Conds p lhs.ty rhs.ty) LC LR LCT LRT)
        dev

/-- The tile arguments with which the left and the right operand were evaluated,
for the record of a `StnFilt` node. -/
def Fragment.operandTiles : Fragment → Option ((Nat × Nat × Nat × Nat) × (Nat × Nat × Nat × Nat))
  | .operand .. => none
  | .executed _ _ _ _ _ _ _ lhs rhs => some (lhs.tile, rhs.tile)

/-! ## Sample trees -/

/-- Sample declarations: the memory type keeps the leaf type and the shape it is
given, a functor returns the element type of its left argument. -/
def sampleDecls : Decls :=
  ⟨fun _ LfType Cols Rows _ => ⟨LfType, Cols, Rows⟩, fun op => op.LhsOutType⟩

/-- A 4x4 signal leaf. -/
def signal4x4 : Expr := .leaf ⟨0, ⟨0, 4, 4⟩, 0, 4, 4, false⟩ false

/-- A 3x3 filter leaf. -/
def filter3x3 : Expr := .leaf ⟨0, ⟨0, 3, 3⟩, 0, 3, 3, false⟩ false

/-- Template arguments of a 4x4 neighbour node with halo (1,1,1,1) at level 1. -/
def params4x4 : StnParams := ⟨⟨0, 0, 0⟩, 1, 1, 1, 1, 4, 4, 0, 1⟩

/-- Template arguments of an 8x8 neighbour node with halo (1,1,1,1) at level 2. -/
def params8x8 : StnParams := ⟨⟨0, 0, 0⟩, 1, 1, 1, 1, 8, 8, 0, 2⟩

/-- A neighbour node of the shape of its signal: `Stencil_Conds` is false. -/
def matchedNode : Expr := .stnFilt params4x4 signal4x4 filter3x3 false

/-- Template arguments of a 4x4 neighbour node with halo (1,1,1,1) at level 2. -/
def params4x4L2 : StnParams := ⟨⟨0, 0, 0⟩, 1, 1, 1, 1, 4, 4, 0, 2⟩

/-- A 4x4 neighbour node over the 4x4 `matchedNode`: `Stencil_Conds` is false
and the left operand is itself a neighbour node. -/
def stackedNode : Expr := .stnFilt params4x4L2 matchedNode filter3x3 false

/-- A neighbour node configured 8x8 over the 4x4 `matchedNode`: `Stencil_Conds`
is true. -/
def mismatchedNode : Expr := .stnFilt params8x8 matchedNode filter3x3 false

/-! ## Theorems -/

/-- C1: for every neighbour node, `SubExpressionEvaluationNeeded` (FusionNeeded)
equals `Stencil_Conds` of the node OR the left operand's flag OR the right
operand's flag. -/
theorem fusionNeeded_eq (p : StnParams) (LHS RHS : ExprT) :
    (ExprT.stnFilt p LHS RHS).SubExpressionEvaluationNeeded =
      (StnFilt.Stencil_Conds p LHS RHS || LHS.SubExpressionEvaluationNeeded ||
        RHS.SubExpressionEvaluationNeeded) := by
  rfl

/-- The recorded run loses nothing: with any dispatcher and any operand
evaluation, `sub_expression_evaluation` is the replay of the record. -/
theorem sub_expression_evaluation_eq_replay {F D : Type}
    (execute_expr : Bool → Bool → ExprT → Nat → Nat → Nat → Nat → F → F → D → F)
    (leaf_evaluation : Bool → Nat → Nat → Nat → Nat → Operand → Bool → D → F)
    (LC LR LCT LRT : Nat) (dev : D) (e : Expr) (ForcedToExec : Bool) :
    e.sub_expression_evaluation execute_expr leaf_evaluation LC LR LCT LRT dev ForcedToExec =
      (e.decide LC LR LCT LRT ForcedToExec).replay execute_expr leaf_evaluation dev := by
  induction e generalizing ForcedToExec with
  | leaf T state => rfl
  | stnFilt p lhs rhs flag ihl ihr =>
    simp only [Expr.decide, Expr.sub_expression_evaluation, record_execute, Fragment.replay]
    rw [ihl, ihr]
    rfl

/-- C2: `Stencil_Conds` holds exactly when the configured `Rows` differ from the
left operand's `RThread` or the configured `Cols` differ from its `CThread`; the
functor, the halo, the leaf type, the level and the right operand do not enter. -/
theorem stencil_conds_iff_shape_differs (Conv_OP Conv_OP2 : LocalBinaryOp)
    (Halo_T Halo_L Halo_B Halo_R Halo_T2 Halo_L2 Halo_B2 Halo_R2 : Nat)
    (Cols Rows LfType LfType2 LVL LVL2 : Nat) (LHS RHS RHS2 : ExprT) :
    (StnFilt.Stencil_Conds ⟨Conv_OP, Halo_T, Halo_L, Halo_B, Halo_R, Cols, Rows, LfType, LVL⟩
        LHS RHS = true ↔ (Rows ≠ LHS.RThread ∨ Cols ≠ LHS.CThread)) ∧
    StnFilt.Stencil_Conds ⟨Conv_OP, Halo_T, Halo_L, Halo_B, Halo_R, Cols, Rows, LfType, LVL⟩
        LHS RHS =
      StnFilt.Stencil_Conds
        ⟨Conv_OP2, Halo_T2, Halo_L2, Halo_B2, Halo_R2, Cols, Rows, LfType2, LVL2⟩ LHS RHS2 := by
  constructor
  · simp [StnFilt.Stencil_Conds, StnFilt.RThread, StnFilt.CThread]
  · rfl

/-- C3 (as stated, refuted): `mismatchedNode` has `SubExpressionEvaluationNeeded`
true, yet decided with `ForcedToExec = false` it is dispatched with forced flag
false, not `false || SubExpressionEvaluationNeeded`. -/
theorem dispatch_forced_not_fusionNeeded :
    mismatchedNode.ty.SubExpressionEvaluationNeeded = true ∧
    (mismatchedNode.decide 0 0 0 0 false).dispatchedForced = some false ∧
    (mismatchedNode.decide 0 0 0 0 false).dispatchedForced ≠
      some (false || mismatchedNode.ty.SubExpressionEvaluationNeeded) := by
  decide

/-- C3 (amended): for every neighbour node, every dispatcher and every
`ForcedToExec`, `sub_expression_evaluation` is one call of the dispatcher with the
node's `Stencil_Conds`, the received `ForcedToExec` unchanged as forced flag, the
node's own type, the tile arguments and the results of the two operands. -/
theorem dispatch_with_received_forced {F D : Type}
    (execute_expr : Bool → Bool → ExprT → Nat → Nat → Nat → Nat → F → F → D → F)
    (leaf_evaluation : Bool → Nat → Nat → Nat → Nat → Operand → Bool → D → F)
    (LC LR LCT LRT : Nat) (dev : D) (p : StnParams) (lhs rhs : Expr) (flag : Bool)
    (ForcedToExec : Bool) :
    (Expr.stnFilt p lhs rhs flag).sub_expression_evaluation execute_expr leaf_evaluation
        LC LR LCT LRT dev ForcedToExec =
      execute_expr (StnFilt.Stencil_Conds p lhs.ty rhs.ty) ForcedToExec
        (Expr.stnFilt p lhs rhs flag).ty LC LR LCT LRT
        (lhs.sub_expression_evaluation execute_expr leaf_evaluation LC LR LCT LRT dev
          (StnFilt.Stencil_Conds p lhs.ty rhs.ty))
        (rhs.sub_expression_evaluation execute_expr leaf_evaluation LC LR LCT LRT dev
          (StnFilt.Stencil_Conds p lhs.ty rhs.ty))
        dev := by
  rfl

/-- C4 (as stated, refuted): `stackedNode` has `Stencil_Conds` false; decided with
`ForcedToExec = true` it evaluates both operands with `ForcedToExec = false`, and
its left operand, a neighbour node, is dispatched with forced flag false, while
the claimed value `(true || FusionNeeded) || Stencil_Conds` is true. -/
theorem operands_do_not_inherit_forced :
    (stackedNode.decide 0 0 0 0 true).operandsForced = some (false, false) ∧
    (stackedNode.decide 0 0 0 0 true).operands =
      some (matchedNode.decide 0 0 0 0 false, filter3x3.decide 0 0 0 0 false) ∧
    (matchedNode.decide 0 0 0 0 false).dispatchedForced = some false ∧
    ((true || stackedNode.ty.SubExpressionEvaluationNeeded) ||
      StnFilt.Stencil_Conds params4x4L2 matchedNode.ty filter3x3.ty) = true := by
  decide

/-- C4 (amended): for every neighbour node and every `ForcedToExec`, both
operands are evaluated with `ForcedToExec = Stencil_Conds` of the node, whatever
the node's own `ForcedToExec` and `SubExpressionEvaluationNeeded`. -/
theorem operands_forced_eq_stencil_conds (LC LR LCT LRT : Nat) (p : StnParams)
    (lhs rhs : Expr) (flag : Bool) (ForcedToExec : Bool) :
    ((Expr.stnFilt p lhs rhs flag).decide LC LR LCT LRT ForcedToExec).operands =
        some (lhs.decide LC LR LCT LRT (StnFilt.Stencil_Conds p lhs.ty rhs.ty),
              rhs.decide LC LR LCT LRT (StnFilt.Stencil_Conds p lhs.ty rhs.ty)) ∧
    ((Expr.stnFilt p lhs rhs flag).decide LC LR LCT LRT ForcedToExec).operandsForced =
        some (StnFilt.Stencil_Conds p lhs.ty rhs.ty, StnFilt.Stencil_Conds p lhs.ty rhs.ty) := by
  constructor
  · rfl
  · cases lhs <;> cases rhs <;> rfl

/-- C5: for every neighbour node, the forced flag handed to the dispatcher is the
received `ForcedToExec`, whatever the node's `Stencil_Conds`; `mismatchedNode`,
whose `Stencil_Conds` is true, decided with `ForcedToExec = false` is dispatched
with forced flag false. -/
theorem dispatched_forced_eq_forcedByParent (LC LR LCT LRT : Nat) (p : StnParams)
    (lhs rhs : Expr) (flag : Bool) (ForcedToExec : Bool) :
    ((Expr.stnFilt p lhs rhs flag).decide LC LR LCT LRT ForcedToExec).dispatchedForced =
        some ForcedToExec ∧
    StnFilt.Stencil_Conds params8x8 matchedNode.ty filter3x3.ty = true ∧
    (mismatchedNode.decide LC LR LCT LRT false).dispatchedForced = some false := by
  refine ⟨rfl, by decide, rfl⟩

/-- C6: for every neighbour node whose `Stencil_Conds` is true and for either
value of its own `ForcedToExec`, both operands are evaluated with
`ForcedToExec = true`; an operand that is itself a neighbour node is therefore
dispatched with forced flag true. -/
theorem stencil_conds_forces_operands (LC LR LCT LRT : Nat) (p : StnParams)
    (lhs rhs : Expr) (flag : Bool) (ForcedToExec : Bool)
    (h : StnFilt.Stencil_Conds p lhs.ty rhs.ty = true) :
    ((Expr.stnFilt p lhs rhs flag).decide LC LR LCT LRT ForcedToExec).operands =
        some (lhs.decide LC LR LCT LRT true, rhs.decide LC LR LCT LRT true) ∧
    ((Expr.stnFilt p lhs rhs flag).decide LC LR LCT LRT ForcedToExec).operandsForced =
        some (true, true) ∧
    (lhs.decide LC LR LCT LRT true).dispatchedForced =
        (if lhs.isNeighbour then some true else none) ∧
    (rhs.decide LC LR LCT LRT true).dispatchedForced =
        (if rhs.isNeighbour then some true else none) := by
  have hop : ((Expr.stnFilt p lhs rhs flag).decide LC LR LCT LRT ForcedToExec).operands =
      some (lhs.decide LC LR LCT LRT (StnFilt.Stencil_Conds p lhs.ty rhs.ty),
            rhs.decide LC LR LCT LRT (StnFilt.Stencil_Conds p lhs.ty rhs.ty)) := rfl
  have hfo : ((Expr.stnFilt p lhs rhs flag).decide LC LR LCT LRT ForcedToExec).operandsForced =
      some ((lhs.decide LC LR LCT LRT (StnFilt.Stencil_Conds p lhs.ty rhs.ty)).decidedForced,
            (rhs.decide LC LR LCT LRT (StnFilt.Stencil_Conds p lhs.ty rhs.ty)).decidedForced) :=
    rfl
  rw [h] at hop hfo
  refine ⟨hop, ?_, ?_, ?_⟩
  · rw [hfo]
    cases lhs <;> cases rhs <;> rfl
  · cases lhs <;> rfl
  · cases rhs <;> rfl

/-- Witness of C6 on `mismatchedNode`, decided without being forced. -/
theorem stencil_conds_forces_operands_witness :
    StnFilt.Stencil_Conds params8x8 matchedNode.ty filter3x3.ty = true ∧
    ((Expr.stnFilt params8x8 matchedNode filter3x3 false).decide 0 0 0 0 false).operands =
        some (matchedNode.decide 0 0 0 0 true, filter3x3.decide 0 0 0 0 true) ∧
    ((Expr.stnFilt params8x8 matchedNode filter3x3 false).decide 0 0 0 0 false).operandsForced =
        some (true, true) ∧
    (matchedNode.decide 0 0 0 0 true).dispatchedForced =
        (if matchedNode.isNeighbour then some true else none) ∧
    (filter3x3.decide 0 0 0 0 true).dispatchedForced =
        (if filter3x3.isNeighbour then some true else none) :=
  ⟨by decide,
    stencil_conds_forces_operands 0 0 0 0 params8x8 matchedNode filter3x3 false false (by decide)⟩

/-- The level argument without wrap-around is one more than the larger operand
level. -/
theorem neighbour_level_eq_max (LHS RHS : ExprT) :
    neighbour_level LHS RHS = 1 + max LHS.Level RHS.Level := by
  unfold neighbour_level StaticIf
  by_cases h : LHS.Level > RHS.Level
  · have hm : max LHS.Level RHS.Level = LHS.Level := Nat.max_eq_left (Nat.le_of_lt h)
    simp [h, hm]
  · have hm : max LHS.Level RHS.Level = RHS.Level := Nat.max_eq_right (Nat.le_of_not_gt h)
    simp [h, hm]

/-- C8: a node built by a default-halo overload, (a) or (b), has halo
`(top, left, bottom, right) = (Rows/2, Cols/2, Rows/2, Cols/2)` of the filter's
memory type, with truncating division; in particular top equals bottom and left
equals right. -/
theorem default_halo_from_filter (E : Decls) (OP Cols Rows LeafType : Nat) (lhs rhs : Expr) :
    (neighbour_operation_a E OP Cols Rows LeafType lhs rhs).Halo =
        some ((rhs.ty.Type_ E).Rows / 2, (rhs.ty.Type_ E).Cols / 2,
              (rhs.ty.Type_ E).Rows / 2, (rhs.ty.Type_ E).Cols / 2) ∧
    (neighbour_operation_b E OP lhs rhs).Halo =
        some ((rhs.ty.Type_ E).Rows / 2, (rhs.ty.Type_ E).Cols / 2,
              (rhs.ty.Type_ E).Rows / 2, (rhs.ty.Type_ E).Cols / 2) := by
  exact ⟨rfl, rfl⟩

/-- The default halo of a 3x3 filter is (1,1,1,1), of a 4x2 filter (2,1,2,1). -/
theorem default_halo_samples :
    (neighbour_operation_b sampleDecls 0 signal4x4 filter3x3).Halo = some (1, 1, 1, 1) ∧
    (neighbour_operation_a sampleDecls 0 4 4 0 signal4x4
        (.leaf ⟨0, ⟨0, 2, 4⟩, 0, 4, 2, false⟩ false)).Halo = some (2, 1, 2, 1) := by
  decide

/-- The flags of a reset tree, by induction on the tree. -/
theorem neighbourFlags_reset (e : Expr) (b : Bool) :
    (e.reset b).neighbourFlags = List.replicate e.neighbourCount b := by
  induction e with
  | leaf T state => rfl
  | stnFilt p lhs rhs flag ihl ihr =>
    simp only [Expr.reset, Expr.neighbourFlags, Expr.neighbourCount, ihl, ihr]
    rw [Nat.add_assoc, Nat.add_comm 1, List.replicate_succ, List.replicate_add]

/-- C9: after `reset(b)` on the root the tree has the same neighbour nodes and
each of them, the root and every descendant reached through `lhs` or `rhs`, has
its `subexpr_execution_reseter` equal to `b`, whatever the flags were before. -/
theorem reset_sets_every_flag (e : Expr) (b : Bool) :
    (e.reset b).neighbourFlags = List.replicate e.neighbourCount b ∧
    (e.reset b).neighbourCount = e.neighbourCount ∧
    ∀ x ∈ (e.reset b).neighbourFlags, x = b := by
  have h := neighbourFlags_reset e b
  refine ⟨h, ?_, ?_⟩
  · induction e with
    | leaf T state => rfl
    | stnFilt p lhs rhs flag ihl ihr =>
      simp only [Expr.reset, Expr.neighbourCount]
      rw [ihl (neighbourFlags_reset lhs b), ihr (neighbourFlags_reset rhs b)]
  · intro x hx
    rw [h] at hx
    exact List.eq_of_mem_replicate hx

/-- C10: the four overloads build the same node when the explicit arguments of
one are the values another deduces: (b) is (a) at the left operand's
`Type::Cols`, `Type::Rows`, `Type::LeafType`; (a) is (c) at the halo
`(Rows/2, Cols/2, Rows/2, Cols/2)` of the filter; (d) is (c) at the left
operand's `Type::Cols`, `Type::Rows`, `Type::LeafType`. -/
theorem neighbour_operation_overloads_agree (E : Decls)
    (OP Halo_T Halo_L Halo_B Halo_R Cols Rows LeafType : Nat) (lhs rhs : Expr) :
    neighbour_operation_b E OP lhs rhs =
        neighbour_operation_a E OP (lhs.ty.Type_ E).Cols (lhs.ty.Type_ E).Rows
          (lhs.ty.Type_ E).LeafType lhs rhs ∧
    neighbour_operation_a E OP Cols Rows LeafType lhs rhs =
        neighbour_operation_c E OP ((rhs.ty.Type_ E).Rows / 2) ((rhs.ty.Type_ E).Cols / 2)
          ((rhs.ty.Type_ E).Rows / 2) ((rhs.ty.Type_ E).Cols / 2) Cols Rows LeafType lhs rhs ∧
    neighbour_operation_d E OP Halo_T Halo_L Halo_B Halo_R lhs rhs =
        neighbour_operation_c E OP Halo_T Halo_L Halo_B Halo_R (lhs.ty.Type_ E).Cols
          (lhs.ty.Type_ E).Rows (lhs.ty.Type_ E).LeafType lhs rhs := by
  exact ⟨rfl, rfl, rfl⟩

/-- C11: a node built by an explicit-halo overload, (c) or (d), has halo
`(top, left, bottom, right) = (Halo_T, Halo_L, Halo_B, Halo_R)` exactly as given,
for every filter. -/
theorem explicit_halo_kept (E : Decls)
    (OP Halo_T Halo_L Halo_B Halo_R Cols Rows LeafType : Nat) (lhs rhs : Expr) :
    (neighbour_operation_c E OP Halo_T Halo_L Halo_B Halo_R Cols Rows LeafType lhs rhs).Halo =
        some (Halo_T, Halo_L, Halo_B, Halo_R) ∧
    (neighbour_operation_d E OP Halo_T Halo_L Halo_B Halo_R lhs rhs).Halo =
        some (Halo_T, Halo_L, Halo_B, Halo_R) := by
  exact ⟨rfl, rfl⟩

/-- The recorded run of a `StnFilt` node, unfolded once. -/
theorem decide_stnFilt (LC LR LCT LRT : Nat) (p : StnParams) (lhs rhs : Expr) (flag : Bool)
    (ForcedToExec : Bool) :
    (Expr.stnFilt p lhs rhs flag).decide LC LR LCT LRT ForcedToExec =
      Fragment.executed (StnFilt.Stencil_Conds p lhs.ty rhs.ty) ForcedToExec
        (ExprT.stnFilt p lhs.ty rhs.ty) LC LR LCT LRT
        (lhs.decide LC LR LCT LRT (StnFilt.Stencil_Conds p lhs.ty rhs.ty))
        (rhs.decide LC LR LCT LRT (StnFilt.Stencil_Conds p lhs.ty rhs.ty)) := by
  rfl

/-- The recorded run of an operand declared elsewhere. -/
theorem decide_leaf (LC LR LCT LRT : Nat) (T : Operand) (state : Bool) (ForcedToExec : Bool) :
    (Expr.leaf T state).decide LC LR LCT LRT ForcedToExec =
      Fragment.operand ForcedToExec LC LR LCT LRT T state := by
  rfl

/-- The body hands the tile arguments on unchanged: every call recorded in a run
carries the `(LC, LR, LCT, LRT)` the root received. -/
theorem decide_hands_tile_unchanged (LC LR LCT LRT : Nat) (e : Expr) (ForcedToExec : Bool)
    (path : List Bool) :
    ((e.decide LC LR LCT LRT ForcedToExec).subAt path).map Fragment.tile =
      (e.subAt path).map (fun _ => (LC, LR, LCT, LRT)) := by
  induction e generalizing ForcedToExec path with
  | leaf T state =>
    cases path with
    | nil => rfl
    | cons d path => rfl
  | stnFilt p lhs rhs flag ihl ihr =>
    cases path with
    | nil => rfl
    | cons d path =>
      rw [decide_stnFilt]
      cases d
      · simpa [Fragment.subAt, Expr.subAt] using ihl _ path
      · simpa [Fragment.subAt, Expr.subAt] using ihr _ path

/-- C12 (the code at `sub_expression_evaluation<false, 0, 0, 16, 8>` on
`matchedNode`): the body evaluates both operands with the tile arguments
`(0, 0, 16, 8)` it received, but the trailing return type is computed from the
operand instantiations with `LCT` and `LRT` exchanged, `(0, 0, 8, 16)`, so the
declared result is not the one of the returned expression. -/
theorem declared_result_exchanges_LCT_LRT :
    (matchedNode.decide 0 0 16 8 false).operandTiles =
        some ((0, 0, 16, 8), (0, 0, 16, 8)) ∧
    (matchedNode.returned_result record_execute record_leaf () false 0 0 16 8).operandTiles =
        some ((0, 0, 16, 8), (0, 0, 16, 8)) ∧
    (matchedNode.declared_result record_execute record_leaf () false 0 0 16 8).operandTiles =
        some ((0, 0, 8, 16), (0, 0, 8, 16)) ∧
    matchedNode.declared_result record_execute record_leaf () false 0 0 16 8 ≠
      matchedNode.returned_result record_execute record_leaf () false 0 0 16 8 := by
  refine ⟨by decide, by decide, by decide, by decide⟩

/-- The type of an object is not changed by `reset`. -/
theorem ty_reset (e : Expr) (b : Bool) : (e.reset b).ty = e.ty := by
  induction e with
  | leaf T state => rfl
  | stnFilt p lhs rhs flag ihl ihr =>
    simp only [Expr.reset, Expr.ty, ihl, ihr]

/-- The boundaries of a recorded run depend on the type of the tree only. -/
theorem boundariesAt_of_ty_eq (LC LR LCT LRT LC2 LR2 LCT2 LRT2 : Nat) (e1 e2 : Expr)
    (ForcedToExec : Bool) (path : List Bool) (h : e1.ty = e2.ty) :
    (e1.decide LC LR LCT LRT ForcedToExec).boundariesAt path =
      (e2.decide LC2 LR2 LCT2 LRT2 ForcedToExec).boundariesAt path := by
  induction e1 generalizing e2 ForcedToExec path with
  | leaf T state =>
    cases e2 with
    | leaf T2 state2 => rfl
    | stnFilt p2 l2 r2 s2 => simp [Expr.ty] at h
  | stnFilt p lhs rhs flag ihl ihr =>
    cases e2 with
    | leaf T2 state2 => simp [Expr.ty] at h
    | stnFilt p2 l2 r2 s2 =>
      simp only [Expr.ty, ExprT.stnFilt.injEq] at h
      obtain ⟨hp, hl, hr⟩ := h
      subst hp
      rw [decide_stnFilt, decide_stnFilt, hl, hr]
      simp only [Fragment.boundariesAt]
      rw [ihl l2 _ _ hl, ihr r2 _ _ hr]

/-- C13: two runs of `decide` on trees of the same type (the same
construction-time metadata), with the same initial `ForcedToExec`, yield the same
materialization boundaries, whatever the execution-state flags of the two trees
and however each was reset before its run. -/
theorem boundaries_deterministic (LC LR LCT LRT : Nat) (e1 e2 : Expr) (ForcedToExec : Bool)
    (b1 b2 : Bool) (h : e1.ty = e2.ty) :
    (e1.decide LC LR LCT LRT ForcedToExec).boundaries =
        (e2.decide LC LR LCT LRT ForcedToExec).boundaries ∧
    ((e1.reset b1).decide LC LR LCT LRT ForcedToExec).boundaries =
        ((e2.reset b2).decide LC LR LCT LRT ForcedToExec).boundaries := by
  constructor
  · exact boundariesAt_of_ty_eq LC LR LCT LRT LC LR LCT LRT e1 e2 ForcedToExec [] h
  · apply boundariesAt_of_ty_eq
    rw [ty_reset, ty_reset, h]

/-- Witness of C13: `mismatchedNode` and the same tree with every flag set. -/
theorem boundaries_deterministic_witness :
    mismatchedNode.ty = (mismatchedNode.reset true).ty ∧
    (mismatchedNode.decide 0 0 0 0 false).boundaries =
        ((mismatchedNode.reset true).decide 0 0 0 0 false).boundaries ∧
    ((mismatchedNode.reset false).decide 0 0 0 0 false).boundaries =
        (((mismatchedNode.reset true).reset true).decide 0 0 0 0 false).boundaries :=
  ⟨by decide,
    boundaries_deterministic 0 0 0 0 mismatchedNode (mismatchedNode.reset true) false false true
      (by decide)⟩

/-- C17: `reset` changes only execution-state flags: the reset tree has the same
type, hence the same shape, the same operand types in the same positions and the
same `OutType`, memory type, `Level`, halo, `Stencil_Conds` and
`SubExpressionEvaluationNeeded` at every node. -/
theorem reset_keeps_metadata (E : Decls) (e : Expr) (b : Bool) :
    (e.reset b).ty = e.ty ∧
    (e.reset b).neighbourNodes = e.neighbourNodes ∧
    (e.reset b).ty.OutType E = e.ty.OutType E ∧
    (e.reset b).ty.Type_ E = e.ty.Type_ E ∧
    (e.reset b).ty.Level = e.ty.Level ∧
    (e.reset b).Halo = e.Halo ∧
    (e.reset b).nodeStencilConds = e.nodeStencilConds ∧
    (e.reset b).ty.SubExpressionEvaluationNeeded = e.ty.SubExpressionEvaluationNeeded := by
  have h := ty_reset e b
  refine ⟨h, ?_, by rw [h], by rw [h], by rw [h], ?_, ?_, by rw [h]⟩
  · induction e with
    | leaf T state => rfl
    | stnFilt p lhs rhs flag ihl ihr =>
      simp only [Expr.reset, Expr.neighbourNodes, ty_reset]
      rw [ihl (ty_reset lhs b), ihr (ty_reset rhs b)]
  · cases e <;> rfl
  · cases e with
    | leaf T state => rfl
    | stnFilt p lhs rhs flag =>
      simp only [Expr.reset, Expr.nodeStencilConds, ty_reset]

/-- A subtree whose `SubExpressionEvaluationNeeded` is true makes the flag of the
whole tree true. -/
theorem fusionNeeded_of_subtree (T S : ExprT) (hS : S ∈ T.subtrees)
    (h : S.SubExpressionEvaluationNeeded = true) : T.SubExpressionEvaluationNeeded = true := by
  induction T with
  | leaf O =>
    simp only [ExprT.subtrees, List.mem_singleton] at hS
    rw [← hS]
    exact h
  | stnFilt p LHS RHS ihl ihr =>
    simp only [ExprT.subtrees, List.mem_cons, List.mem_append] at hS
    rcases hS with hS | hS | hS
    · rw [← hS]
      exact h
    · simp [ExprT.SubExpressionEvaluationNeeded, ihl hS]
    · simp [ExprT.SubExpressionEvaluationNeeded, ihr hS]

/-- Over leaves that need no evaluation, the flag of a tree is true exactly when
some neighbour node of the tree has `Stencil_Conds`. -/
theorem fusionNeeded_iff_exists_mismatch (T : ExprT) (h : T.leavesNeedNoEvaluation = true) :
    T.SubExpressionEvaluationNeeded = true ↔ ∃ S ∈ T.subtrees, S.shapeMismatch = true := by
  induction T with
  | leaf O =>
    simp only [ExprT.leavesNeedNoEvaluation, Bool.not_eq_true'] at h
    simp [ExprT.SubExpressionEvaluationNeeded, ExprT.subtrees, ExprT.shapeMismatch, h]
  | stnFilt p LHS RHS ihl ihr =>
    simp only [ExprT.leavesNeedNoEvaluation, Bool.and_eq_true] at h
    have hl := ihl h.1
    have hr := ihr h.2
    simp only [ExprT.SubExpressionEvaluationNeeded, Bool.or_eq_true, hl, hr, ExprT.subtrees,
      List.mem_cons, List.mem_append]
    constructor
    · rintro ((hc | ⟨S, hS, hm⟩) | ⟨S, hS, hm⟩)
      · exact ⟨_, Or.inl rfl, hc⟩
      · exact ⟨S, Or.inr (Or.inl hS), hm⟩
      · exact ⟨S, Or.inr (Or.inr hS), hm⟩
    · rintro ⟨S, hS | hS | hS, hm⟩
      · subst hS
        exact Or.inl (Or.inl hm)
      · exact Or.inl (Or.inr ⟨S, hS, hm⟩)
      · exact Or.inr ⟨S, hS, hm⟩

/-- C15: for every tree whose leaves have `SubExpressionEvaluationNeeded = false`,
the flag of the root is true if and only if some neighbour node of the tree, at
any depth, has `Stencil_Conds = true`; and the flag of a node implies the flag of
each of its ancestors. -/
theorem fusionNeeded_is_or_over_subtree (T : ExprT) (h : T.leavesNeedNoEvaluation = true) :
    (T.SubExpressionEvaluationNeeded = true ↔ ∃ S ∈ T.subtrees, S.shapeMismatch = true) ∧
    ∀ A ∈ T.subtrees, ∀ S ∈ A.subtrees,
      S.SubExpressionEvaluationNeeded = true → A.SubExpressionEvaluationNeeded = true :=
  ⟨fusionNeeded_iff_exists_mismatch T h, fun A _ S hS hf => fusionNeeded_of_subtree A S hS hf⟩

/-- Witness of C15 on the type of `mismatchedNode`. -/
theorem fusionNeeded_is_or_over_subtree_witness :
    mismatchedNode.ty.leavesNeedNoEvaluation = true ∧
    ((mismatchedNode.ty.SubExpressionEvaluationNeeded = true ↔
        ∃ S ∈ mismatchedNode.ty.subtrees, S.shapeMismatch = true) ∧
      ∀ A ∈ mismatchedNode.ty.subtrees, ∀ S ∈ A.subtrees,
        S.SubExpressionEvaluationNeeded = true → A.SubExpressionEvaluationNeeded = true) :=
  ⟨by decide, fusionNeeded_is_or_over_subtree mismatchedNode.ty (by decide)⟩

/-- Every tree is among its own subtrees. -/
theorem mem_subtrees_self (e : Expr) : e ∈ e.subtrees := by
  cases e <;> simp [Expr.subtrees]

/-- The proper descendants of a node are among its subtrees. -/
theorem mem_subtrees_of_mem_properDescendants (n d : Expr) (h : d ∈ n.properDescendants) :
    d ∈ n.subtrees := by
  cases n with
  | leaf T state => simp [Expr.properDescendants] at h
  | stnFilt p lhs rhs flag =>
    simp only [Expr.properDescendants] at h
    simp only [Expr.subtrees, List.mem_cons]
    exact Or.inr h

/-- A subtree is no higher than the tree. -/
theorem height_le_of_mem_subtrees (n d : Expr) (h : d ∈ n.subtrees) : d.height ≤ n.height := by
  induction n with
  | leaf T state =>
    simp only [Expr.subtrees, List.mem_singleton] at h
    rw [h]
  | stnFilt p lhs rhs flag ihl ihr =>
    simp only [Expr.subtrees, List.mem_cons, List.mem_append] at h
    rcases h with h | h | h
    · rw [h]
    · have := ihl h
      simp only [Expr.height]
      omega
    · have := ihr h
      simp only [Expr.height]
      omega

/-- A proper descendant is strictly lower than the node. -/
theorem height_lt_of_mem_properDescendants (n d : Expr) (h : d ∈ n.properDescendants) :
    d.height < n.height := by
  cases n with
  | leaf T state => simp [Expr.properDescendants] at h
  | stnFilt p lhs rhs flag =>
    simp only [Expr.properDescendants, List.mem_append] at h
    simp only [Expr.height]
    rcases h with h | h
    · have := height_le_of_mem_subtrees lhs d h
      omega
    · have := height_le_of_mem_subtrees rhs d h
      omega

/-- The subtrees of a tree built with the overloads are built with the overloads. -/
theorem built_of_mem_subtrees (E : Decls) (e : Expr) (h : BuiltByNeighbourOperation E e)
    (n : Expr) (hn : n ∈ e.subtrees) : BuiltByNeighbourOperation E n := by
  induction h with
  | leaf T state h0 =>
    simp only [Expr.subtrees, List.mem_singleton] at hn
    rw [hn]
    exact BuiltByNeighbourOperation.leaf T state h0
  | overload_a OP Cols Rows LeafType lhs rhs hl hr ihl ihr =>
    simp only [neighbour_operation_a, StnFilt.mk, Expr.subtrees, List.mem_cons,
      List.mem_append] at hn
    rcases hn with hn | hn | hn
    · rw [hn]
      exact BuiltByNeighbourOperation.overload_a OP Cols Rows LeafType lhs rhs hl hr
    · exact ihl hn
    · exact ihr hn
  | overload_b OP lhs rhs hl hr ihl ihr =>
    simp only [neighbour_operation_b, StnFilt.mk, Expr.subtrees, List.mem_cons,
      List.mem_append] at hn
    rcases hn with hn | hn | hn
    · rw [hn]
      exact BuiltByNeighbourOperation.overload_b OP lhs rhs hl hr
    · exact ihl hn
    · exact ihr hn
  | overload_c OP Halo_T Halo_L Halo_B Halo_R Cols Rows LeafType lhs rhs hl hr ihl ihr =>
    simp only [neighbour_operation_c, StnFilt.mk, Expr.subtrees, List.mem_cons,
      List.mem_append] at hn
    rcases hn with hn | hn | hn
    · rw [hn]
      exact BuiltByNeighbourOperation.overload_c OP Halo_T Halo_L Halo_B Halo_R Cols Rows
        LeafType lhs rhs hl hr
    · exact ihl hn
    · exact ihr hn
  | overload_d OP Halo_T Halo_L Halo_B Halo_R lhs rhs hl hr ihl ihr =>
    simp only [neighbour_operation_d, StnFilt.mk, Expr.subtrees, List.mem_cons,
      List.mem_append] at hn
    rcases hn with hn | hn | hn
    · rw [hn]
      exact BuiltByNeighbourOperation.overload_d OP Halo_T Halo_L Halo_B Halo_R lhs rhs hl hr
    · exact ihl hn
    · exact ihr hn

/-- The level of a tree built with the overloads over leaves of level 0 is its
height. -/
theorem level_eq_height_of_built (E : Decls) (e : Expr) (h : BuiltByNeighbourOperation E e) :
    e.ty.Level = e.height := by
  induction h with
  | leaf T state h0 => simpa [Expr.ty, ExprT.Level, Expr.height] using h0
  | overload_a OP Cols Rows LeafType lhs rhs hl hr ihl ihr =>
    have hlvl : (neighbour_operation_a E OP Cols Rows LeafType lhs rhs).ty.Level =
        neighbour_level lhs.ty rhs.ty := rfl
    rw [hlvl, neighbour_level_eq_max, ihl, ihr]
    rfl
  | overload_b OP lhs rhs hl hr ihl ihr =>
    have hlvl : (neighbour_operation_b E OP lhs rhs).ty.Level =
        neighbour_level lhs.ty rhs.ty := rfl
    rw [hlvl, neighbour_level_eq_max, ihl, ihr]
    rfl
  | overload_c OP Halo_T Halo_L Halo_B Halo_R Cols Rows LeafType lhs rhs hl hr ihl ihr =>
    have hlvl : (neighbour_operation_c E OP Halo_T Halo_L Halo_B Halo_R Cols Rows LeafType lhs rhs).ty.Level =
        neighbour_level lhs.ty rhs.ty := rfl
    rw [hlvl, neighbour_level_eq_max, ihl, ihr]
    rfl
  | overload_d OP Halo_T Halo_L Halo_B Halo_R lhs rhs hl hr ihl ihr =>
    have hlvl : (neighbour_operation_d E OP Halo_T Halo_L Halo_B Halo_R lhs rhs).ty.Level =
        neighbour_level lhs.ty rhs.ty := rfl
    rw [hlvl, neighbour_level_eq_max, ihl, ihr]
    rfl

/-- C16: in a tree built only with the `neighbour_operation` overloads over leaves
of level 0, every node's `Level` equals its height and is strictly greater than
the `Level` of each of its proper descendants. -/
theorem level_strictly_increases_to_root (E : Decls) (e : Expr)
    (h : BuiltByNeighbourOperation E e) :
    ∀ n ∈ e.subtrees,
      n.ty.Level = n.height ∧ ∀ d ∈ n.properDescendants, d.ty.Level < n.ty.Level := by
  intro n hn
  have hb := built_of_mem_subtrees E e h n hn
  refine ⟨level_eq_height_of_built E n hb, ?_⟩
  intro d hd
  have hdb := built_of_mem_subtrees E n hb d (mem_subtrees_of_mem_properDescendants n d hd)
  rw [level_eq_height_of_built E n hb, level_eq_height_of_built E d hdb]
  exact height_lt_of_mem_properDescendants n d hd

/-- Witness of C16: a node built with overload (a) over a node built with
overload (b) over two leaves of level 0. -/
theorem level_strictly_increases_to_root_witness :
    BuiltByNeighbourOperation sampleDecls
      (neighbour_operation_a sampleDecls 0 8 8 0
        (neighbour_operation_b sampleDecls 0 signal4x4 filter3x3) filter3x3) ∧
    ∀ n ∈ (neighbour_operation_a sampleDecls 0 8 8 0
        (neighbour_operation_b sampleDecls 0 signal4x4 filter3x3) filter3x3).subtrees,
      n.ty.Level = n.height ∧ ∀ d ∈ n.properDescendants, d.ty.Level < n.ty.Level :=
  ⟨BuiltByNeighbourOperation.overload_a 0 8 8 0 _ _
      (BuiltByNeighbourOperation.overload_b 0 _ _
        (BuiltByNeighbourOperation.leaf _ _ rfl) (BuiltByNeighbourOperation.leaf _ _ rfl))
      (BuiltByNeighbourOperation.leaf _ _ rfl),
    level_strictly_increases_to_root sampleDecls _
      (BuiltByNeighbourOperation.overload_a 0 8 8 0 _ _
        (BuiltByNeighbourOperation.overload_b 0 _ _
          (BuiltByNeighbourOperation.leaf _ _ rfl) (BuiltByNeighbourOperation.leaf _ _ rfl))
        (BuiltByNeighbourOperation.leaf _ _ rfl))⟩

/-- A recorded run has at most one boundary per call of the dispatcher. -/
theorem boundariesAt_length_le (fr : Fragment) (path : List Bool) :
    (fr.boundariesAt path).length ≤ fr.dispatchedNodes.length := by
  induction fr generalizing path with
  | operand ForcedToExec LC LR LCT LRT T state => simp [Fragment.boundariesAt]
  | executed Conds ForcedToExec Node LC LR LCT LRT lhs rhs ihl ihr =>
    have hl := ihl (path ++ [false])
    have hr := ihr (path ++ [true])
    simp only [Fragment.boundariesAt, Fragment.dispatchedNodes, List.length_append,
      List.length_cons]
    cases ForcedToExec <;> simp <;> omega

/-- The dispatcher is called once per neighbour node, in the order of the tree. -/
theorem dispatchedNodes_decide (LC LR LCT LRT : Nat) (e : Expr) (ForcedToExec : Bool) :
    (e.decide LC LR LCT LRT ForcedToExec).dispatchedNodes = e.neighbourNodes := by
  induction e generalizing ForcedToExec with
  | leaf T state => rfl
  | stnFilt p lhs rhs flag ihl ihr =>
    rw [decide_stnFilt]
    simp only [Fragment.dispatchedNodes, Expr.neighbourNodes, ihl, ihr]

/-- The list of neighbour nodes has one entry per neighbour node. -/
theorem length_neighbourNodes (e : Expr) : e.neighbourNodes.length = e.neighbourCount := by
  induction e with
  | leaf T state => rfl
  | stnFilt p lhs rhs flag ihl ihr =>
    simp only [Expr.neighbourNodes, Expr.neighbourCount, List.length_cons, List.length_append,
      ihl, ihr]
    omega

/-- Operands declared elsewhere are evaluated once each. -/
theorem operandEvaluations_decide (LC LR LCT LRT : Nat) (e : Expr) (ForcedToExec : Bool) :
    (e.decide LC LR LCT LRT ForcedToExec).operandEvaluations = e.leafCount := by
  induction e generalizing ForcedToExec with
  | leaf T state => rfl
  | stnFilt p lhs rhs flag ihl ihr =>
    rw [decide_stnFilt]
    simp only [Fragment.operandEvaluations, Expr.leafCount, ihl, ihr]

/-- The recorded run has a record exactly at the positions of the tree. -/
theorem subAt_decide_isSome (LC LR LCT LRT : Nat) (e : Expr) (ForcedToExec : Bool)
    (path : List Bool) :
    ((e.decide LC LR LCT LRT ForcedToExec).subAt path).isSome = (e.subAt path).isSome := by
  induction e generalizing ForcedToExec path with
  | leaf T state =>
    cases path with
    | nil => rfl
    | cons d path => rfl
  | stnFilt p lhs rhs flag ihl ihr =>
    cases path with
    | nil => rfl
    | cons d path =>
      rw [decide_stnFilt]
      cases d
      · simpa [Fragment.subAt, Expr.subAt] using ihl _ path
      · simpa [Fragment.subAt, Expr.subAt] using ihr _ path

/-- C18: for every tree and every initial `ForcedToExec` the run of `decide` is
defined (the recursion is structural and ends at the leaves); it calls the
dispatcher exactly once for each neighbour node, evaluates every operand exactly
once (one record per position of the tree, one evaluation per leaf), and the
number of nodes dispatched with forced flag true is at most the number of
neighbour nodes. -/
theorem decide_dispatches_each_node_once (LC LR LCT LRT : Nat) (e : Expr) (ForcedToExec : Bool)
    (path : List Bool) :
    (e.decide LC LR LCT LRT ForcedToExec).dispatchedNodes = e.neighbourNodes ∧
    (e.decide LC LR LCT LRT ForcedToExec).dispatchedNodes.length = e.neighbourCount ∧
    (e.decide LC LR LCT LRT ForcedToExec).operandEvaluations = e.leafCount ∧
    ((e.decide LC LR LCT LRT ForcedToExec).subAt path).isSome = (e.subAt path).isSome ∧
    (e.decide LC LR LCT LRT ForcedToExec).boundaries.length ≤ e.neighbourCount := by
  have hd := dispatchedNodes_decide LC LR LCT LRT e ForcedToExec
  have hn := length_neighbourNodes e
  refine ⟨hd, by rw [hd, hn], operandEvaluations_decide LC LR LCT LRT e ForcedToExec,
    subAt_decide_isSome LC LR LCT LRT e ForcedToExec path, ?_⟩
  have hb := boundariesAt_length_le (e.decide LC LR LCT LRT ForcedToExec) []
  rw [hd, hn] at hb
  exact hb

/-- C20: a node built by an inferred-shape overload, (b) or (d), over a left
operand whose `RThread` and `CThread` equal the `Rows` and `Cols` of its memory
type has `Stencil_Conds = false`; its `SubExpressionEvaluationNeeded` is the OR
of the two operands' flags and `decide` evaluates both operands with
`ForcedToExec = false`. -/
theorem inferred_shape_no_stencil_conds (E : Decls) (OP Halo_T Halo_L Halo_B Halo_R : Nat)
    (LC LR LCT LRT : Nat) (lhs rhs : Expr) (ForcedToExec : Bool)
    (hRows : lhs.ty.RThread = (lhs.ty.Type_ E).Rows)
    (hCols : lhs.ty.CThread = (lhs.ty.Type_ E).Cols) :
    ((neighbour_operation_b E OP lhs rhs).nodeStencilConds = some false ∧
      (neighbour_operation_b E OP lhs rhs).ty.SubExpressionEvaluationNeeded =
        (lhs.ty.SubExpressionEvaluationNeeded || rhs.ty.SubExpressionEvaluationNeeded) ∧
      ((neighbour_operation_b E OP lhs rhs).decide LC LR LCT LRT ForcedToExec).operandsForced =
        some (false, false)) ∧
    ((neighbour_operation_d E OP Halo_T Halo_L Halo_B Halo_R lhs rhs).nodeStencilConds =
        some false ∧
      (neighbour_operation_d E OP Halo_T Halo_L Halo_B Halo_R lhs rhs).ty.SubExpressionEvaluationNeeded =
        (lhs.ty.SubExpressionEvaluationNeeded || rhs.ty.SubExpressionEvaluationNeeded) ∧
      ((neighbour_operation_d E OP Halo_T Halo_L Halo_B Halo_R lhs rhs).decide LC LR LCT LRT
          ForcedToExec).operandsForced = some (false, false)) := by
  have hsc : ∀ p : StnParams, p.Rows = (lhs.ty.Type_ E).Rows → p.Cols = (lhs.ty.Type_ E).Cols →
      StnFilt.Stencil_Conds p lhs.ty rhs.ty = false := by
    intro p hr hc
    simp [StnFilt.Stencil_Conds, StnFilt.RThread, StnFilt.CThread, hr, hc, hRows, hCols]
  have hkey : ∀ (p : StnParams) (flag : Bool), p.Rows = (lhs.ty.Type_ E).Rows →
      p.Cols = (lhs.ty.Type_ E).Cols →
      (Expr.stnFilt p lhs rhs flag).nodeStencilConds = some false ∧
      (Expr.stnFilt p lhs rhs flag).ty.SubExpressionEvaluationNeeded =
        (lhs.ty.SubExpressionEvaluationNeeded || rhs.ty.SubExpressionEvaluationNeeded) ∧
      ((Expr.stnFilt p lhs rhs flag).decide LC LR LCT LRT ForcedToExec).operandsForced =
        some (false, false) := by
    intro p flag hr hc
    have h := hsc p hr hc
    refine ⟨?_, ?_, ?_⟩
    · simp only [Expr.nodeStencilConds, h]
    · simp only [Expr.ty, ExprT.SubExpressionEvaluationNeeded, h, Bool.false_or]
    · rw [decide_stnFilt, h]
      cases lhs <;> cases rhs <;> rfl
  exact ⟨hkey _ false rfl rfl, hkey _ false rfl rfl⟩

/-- Witness of C20: overloads (b) and (d) over the 4x4 signal, whose thread shape
is the shape of its memory type. -/
theorem inferred_shape_no_stencil_conds_witness :
    (signal4x4.ty.RThread = (signal4x4.ty.Type_ sampleDecls).Rows ∧
      signal4x4.ty.CThread = (signal4x4.ty.Type_ sampleDecls).Cols) ∧
    ((neighbour_operation_b sampleDecls 0 signal4x4 filter3x3).nodeStencilConds = some false ∧
      (neighbour_operation_b sampleDecls 0 signal4x4 filter3x3).ty.SubExpressionEvaluationNeeded =
        (signal4x4.ty.SubExpressionEvaluationNeeded ||
          filter3x3.ty.SubExpressionEvaluationNeeded) ∧
      ((neighbour_operation_b sampleDecls 0 signal4x4 filter3x3).decide 0 0 0 0
          true).operandsForced = some (false, false)) ∧
    ((neighbour_operation_d sampleDecls 0 2 1 0 1 signal4x4 filter3x3).nodeStencilConds =
        some false ∧
      (neighbour_operation_d sampleDecls 0 2 1 0 1 signal4x4
          filter3x3).ty.SubExpressionEvaluationNeeded =
        (signal4x4.ty.SubExpressionEvaluationNeeded ||
          filter3x3.ty.SubExpressionEvaluationNeeded) ∧
      ((neighbour_operation_d sampleDecls 0 2 1 0 1 signal4x4 filter3x3).decide 0 0 0 0
          true).operandsForced = some (false, false)) :=
  ⟨⟨by decide, by decide⟩,
    inferred_shape_no_stencil_conds sampleDecls 0 2 1 0 1 0 0 0 0 signal4x4 filter3x3 true
      (by decide) (by decide)⟩

/-- The empty path reaches the tree itself. -/
theorem subAt_nil_expr (e : Expr) : e.subAt [] = some e := by
  cases e <;> rfl

/-- The empty path reaches the record itself. -/
theorem subAt_nil_fragment (fr : Fragment) : fr.subAt [] = some fr := by
  cases fr <;> rfl

/-- The root of a run is dispatched with the `ForcedToExec` the run received. -/
theorem dispatchedForced_decide (LC LR LCT LRT : Nat) (e : Expr) (ForcedToExec : Bool) :
    (e.decide LC LR LCT LRT ForcedToExec).dispatchedForced =
      (if e.isNeighbour then some ForcedToExec else none) := by
  cases e <;> rfl

/-- A run is instantiated with the `ForcedToExec` it received. -/
theorem decidedForced_decide (LC LR LCT LRT : Nat) (e : Expr) (ForcedToExec : Bool) :
    (e.decide LC LR LCT LRT ForcedToExec).decidedForced = ForcedToExec := by
  cases e <;> rfl

/-- A neighbour node below the root is dispatched with the `Stencil_Conds` of its
direct parent as forced flag. -/
theorem child_dispatchedForced (LC LR LCT LRT : Nat) (e : Expr) (ForcedToExec : Bool)
    (path : List Bool) (d : Bool) :
    ((e.decide LC LR LCT LRT ForcedToExec).subAt (path ++ [d])).bind Fragment.dispatchedForced =
      (e.subAt (path ++ [d])).bind
        (fun c => if c.isNeighbour then (e.subAt path).bind Expr.nodeStencilConds else none) := by
  induction e generalizing ForcedToExec path with
  | leaf T state =>
    cases path with
    | nil => rfl
    | cons x xs => rfl
  | stnFilt p lhs rhs flag ihl ihr =>
    rw [decide_stnFilt]
    cases path with
    | nil =>
      cases d
      · simp [Fragment.subAt, Expr.subAt, subAt_nil_fragment, subAt_nil_expr,
          dispatchedForced_decide, Expr.nodeStencilConds]
      · simp [Fragment.subAt, Expr.subAt, subAt_nil_fragment, subAt_nil_expr,
          dispatchedForced_decide, Expr.nodeStencilConds]
    | cons x xs =>
      cases x
      · simpa [Fragment.subAt, Expr.subAt] using ihl _ xs
      · simpa [Fragment.subAt, Expr.subAt] using ihr _ xs

/-- The boundaries of a record are the positions whose record was dispatched with
forced flag true. -/
theorem mem_boundariesAt (fr : Fragment) (path q : List Bool) :
    q ∈ fr.boundariesAt path ↔
      ∃ rel, q = path ++ rel ∧ (fr.subAt rel).bind Fragment.dispatchedForced = some true := by
  induction fr generalizing path with
  | operand ForcedToExec LC LR LCT LRT T state =>
    simp only [Fragment.boundariesAt, List.not_mem_nil, false_iff]
    rintro ⟨rel, _, h⟩
    cases rel <;> simp [Fragment.subAt, Fragment.dispatchedForced] at h
  | executed Conds ForcedToExec Node LC LR LCT LRT lhs rhs ihl ihr =>
    simp only [Fragment.boundariesAt, List.mem_append, ihl, ihr]
    constructor
    · rintro (h | ⟨rel, hq, h⟩ | ⟨rel, hq, h⟩)
      · cases ForcedToExec
        · simp at h
        · simp only [if_true, List.mem_singleton] at h
          exact ⟨[], by simp [h], by simp [Fragment.subAt, Fragment.dispatchedForced]⟩
      · exact ⟨false :: rel, by simp [hq], by simpa [Fragment.subAt] using h⟩
      · exact ⟨true :: rel, by simp [hq], by simpa [Fragment.subAt] using h⟩
    · rintro ⟨rel, hq, h⟩
      cases rel with
      | nil =>
        left
        simp only [Fragment.subAt, Option.some_bind, Fragment.dispatchedForced,
          Option.some.injEq] at h
        simp [h, hq]
      | cons d rel =>
        cases d
        · right; left
          exact ⟨rel, by simp [hq], by simpa [Fragment.subAt] using h⟩
        · right; right
          exact ⟨rel, by simp [hq], by simpa [Fragment.subAt] using h⟩

/-- The boundaries of a run are the root, when forced, and the neighbour nodes
whose direct parent has `Stencil_Conds`. -/
theorem mem_boundaries_decide (LC LR LCT LRT : Nat) (e : Expr) (ForcedToExec : Bool)
    (q : List Bool) :
    q ∈ (e.decide LC LR LCT LRT ForcedToExec).boundaries ↔
      (q = [] ∧ ForcedToExec = true ∧ e.isNeighbour = true) ∨
      ∃ path d, q = path ++ [d] ∧ (e.subAt path).bind Expr.nodeStencilConds = some true ∧
        (e.subAt q).map Expr.isNeighbour = some true := by
  rw [Fragment.boundaries, mem_boundariesAt]
  constructor
  · rintro ⟨rel, hq, h⟩
    rw [List.nil_append] at hq
    subst hq
    rcases List.eq_nil_or_concat q with hnil | ⟨path, d, hc⟩
    · subst hnil
      left
      rw [subAt_nil_fragment, Option.some_bind, dispatchedForced_decide] at h
      cases hn : e.isNeighbour <;> simp [hn] at h
      exact ⟨rfl, h, rfl⟩
    · right
      rw [List.concat_eq_append] at hc
      subst hc
      rw [child_dispatchedForced] at h
      refine ⟨path, d, rfl, ?_⟩
      cases hc : e.subAt (path ++ [d]) with
      | none => simp [hc] at h
      | some c =>
        rw [hc, Option.some_bind] at h
        cases hn : c.isNeighbour <;> simp [hn] at h
        exact ⟨h, by simp [hn]⟩
  · rintro (⟨hq, hf, hn⟩ | ⟨path, d, hq, hsc, hn⟩)
    · refine ⟨[], by simp [hq], ?_⟩
      rw [subAt_nil_fragment, Option.some_bind, dispatchedForced_decide, hn, hf]
      rfl
    · refine ⟨q, by simp, ?_⟩
      subst hq
      rw [child_dispatchedForced]
      cases hc : e.subAt (path ++ [d]) with
      | none => simp [hc] at hn
      | some c =>
        rw [hc] at hn
        simp only [Option.map_some', Option.some.injEq] at hn
        simp [hn, hsc]

/-- Without any `Stencil_Conds` in the tree an unforced run has no boundary. -/
theorem boundariesAt_eq_nil_of_no_mismatch (LC LR LCT LRT : Nat) (e : Expr) (path : List Bool)
    (h : ∀ S ∈ e.ty.subtrees, S.shapeMismatch = false) :
    (e.decide LC LR LCT LRT false).boundariesAt path = [] := by
  induction e generalizing path with
  | leaf T state => rfl
  | stnFilt p lhs rhs flag ihl ihr =>
    simp only [Expr.ty, ExprT.subtrees, List.mem_cons, List.mem_append] at h
    have hsc : StnFilt.Stencil_Conds p lhs.ty rhs.ty = false := h _ (Or.inl rfl)
    rw [decide_stnFilt, hsc]
    simp only [Fragment.boundariesAt]
    rw [ihl _ (fun S hS => h S (Or.inr (Or.inl hS))), ihr _ (fun S hS => h S (Or.inr (Or.inr hS)))]
    rfl

/-- C19: in the run of `decide` started at the root with `ForcedToExec = f`, the
root is dispatched with forced flag `f`; the neighbour node at any position below
the root is dispatched with forced flag `Stencil_Conds` of its direct parent,
whatever `f` and the more distant ancestors; the nodes dispatched with forced
flag true are exactly the root (when `f` is true) and the neighbour nodes whose
direct parent has `Stencil_Conds = true`; and when no node of the tree has
`Stencil_Conds`, the run with `f = false` dispatches no node with forced flag
true. -/
theorem forced_flag_from_direct_parent (LC LR LCT LRT : Nat) (e : Expr) (ForcedToExec : Bool)
    (path q : List Bool) (d : Bool) :
    (e.decide LC LR LCT LRT ForcedToExec).dispatchedForced =
        (if e.isNeighbour then some ForcedToExec else none) ∧
    ((e.decide LC LR LCT LRT ForcedToExec).subAt (path ++ [d])).bind Fragment.dispatchedForced =
        (e.subAt (path ++ [d])).bind
          (fun c => if c.isNeighbour then (e.subAt path).bind Expr.nodeStencilConds else none) ∧
    (q ∈ (e.decide LC LR LCT LRT ForcedToExec).boundaries ↔
        (q = [] ∧ ForcedToExec = true ∧ e.isNeighbour = true) ∨
        ∃ path d, q = path ++ [d] ∧ (e.subAt path).bind Expr.nodeStencilConds = some true ∧
          (e.subAt q).map Expr.isNeighbour = some true) ∧
    ((∀ S ∈ e.ty.subtrees, S.shapeMismatch = false) →
        (e.decide LC LR LCT LRT false).boundaries = []) :=
  ⟨dispatchedForced_decide LC LR LCT LRT e ForcedToExec,
    child_dispatchedForced LC LR LCT LRT e ForcedToExec path d,
    mem_boundaries_decide LC LR LCT LRT e ForcedToExec q,
    boundariesAt_eq_nil_of_no_mismatch LC LR LCT LRT e []⟩

/-- Witness of C19: `stackedNode` has no `Stencil_Conds`, and its unforced run has
no boundary. -/
theorem forced_flag_from_direct_parent_witness :
    (∀ S ∈ stackedNode.ty.subtrees, S.shapeMismatch = false) ∧
    (stackedNode.decide 0 0 0 0 false).boundaries = [] :=
  ⟨by decide, (forced_flag_from_direct_parent 0 0 0 0 stackedNode false [] [] false).2.2.2
    (by decide)⟩

/-- The boundaries of `mismatchedNode`: its left operand, a neighbour node under a
parent with `Stencil_Conds`, in both runs; the root only in the forced run. -/
theorem boundaries_samples :
    (mismatchedNode.decide 0 0 0 0 false).boundaries = [[false]] ∧
    (mismatchedNode.decide 0 0 0 0 true).boundaries = [[], [false]] ∧
    (stackedNode.decide 0 0 0 0 true).boundaries = [[]] := by
  refine ⟨by decide, by decide, by decide⟩

end visioncpp
